import Mathlib

/-!
Verification of the trajectory-viewer core (`map_pcd.py`,
`PointCloudAndTrajectoryVisualizer`) against its specification.

The relevant program state and operations are shallowly embedded over `ℚ`
(the Python code computes with IEEE doubles; all claims here are exact
arithmetic identities, so exact rationals model them faithfully, and the
spec's "within floating tolerance" becomes exactness).
-/

namespace TrajectoryViewer

/-- A 3D point `(x, y, z)`, as one row of the numpy arrays in `map_pcd.py`. -/
abbrev Point3 : Type := ℚ × ℚ × ℚ

/-- The mutable 3D-axes state touched by `set_axes_equal` / `set_zoom`:
the `(lo, hi)` limit pair of each of the three axes
(`ax.get_xlim3d()` … `ax.set_zlim3d(...)`). -/
structure Axes3D where
  xlim : ℚ × ℚ
  ylim : ℚ × ℚ
  zlim : ℚ × ℚ
deriving DecidableEq, Repr

/-- `set_axes_equal` (map_pcd.py lines 121-141): compute each axis's
absolute range and midpoint, take `plot_radius = 0.5 * max` of the three
ranges, and set every axis to `[middle - plot_radius, middle + plot_radius]`. -/
def set_axes_equal (ax : Axes3D) : Axes3D :=
  let x_range := |ax.xlim.2 - ax.xlim.1|
  let x_middle := (ax.xlim.1 + ax.xlim.2) / 2
  let y_range := |ax.ylim.2 - ax.ylim.1|
  let y_middle := (ax.ylim.1 + ax.ylim.2) / 2
  let z_range := |ax.zlim.2 - ax.zlim.1|
  let z_middle := (ax.zlim.1 + ax.zlim.2) / 2
  let plot_radius := (1 / 2 : ℚ) * max x_range (max y_range z_range)
  { xlim := (x_middle - plot_radius, x_middle + plot_radius)
    ylim := (y_middle - plot_radius, y_middle + plot_radius)
    zlim := (z_middle - plot_radius, z_middle + plot_radius) }

/-- `set_zoom` (map_pcd.py lines 143-168): compute each axis's midpoint and
absolute half-range, divide the half-range by `zoom`, and set the axis to
`[middle - half_range, middle + half_range]`.  The source performs the
division unconditionally: there is no check for `zoom == 0` anywhere
(in Lean's `ℚ`, `q / 0 = 0`, which stands in for the unchecked division;
the Python code produces non-finite limits there and raises nothing). -/
def set_zoom (ax : Axes3D) (zoom : ℚ) : Axes3D :=
  let x_middle := (ax.xlim.1 + ax.xlim.2) / 2
  let y_middle := (ax.ylim.1 + ax.ylim.2) / 2
  let z_middle := (ax.zlim.1 + ax.zlim.2) / 2
  let x_half_range := |ax.xlim.2 - ax.xlim.1| / 2 / zoom
  let y_half_range := |ax.ylim.2 - ax.ylim.1| / 2 / zoom
  let z_half_range := |ax.zlim.2 - ax.zlim.1| / 2 / zoom
  { xlim := (x_middle - x_half_range, x_middle + x_half_range)
    ylim := (y_middle - y_half_range, y_middle + y_half_range)
    zlim := (z_middle - z_half_range, z_middle + z_half_range) }

/-- The signed range `hi - lo` of an axis-limit pair. -/
def axisRange (lim : ℚ × ℚ) : ℚ := lim.2 - lim.1

/-- The midpoint `(lo + hi) / 2` of an axis-limit pair (`np.mean(limits)`). -/
def axisMiddle (lim : ℚ × ℚ) : ℚ := (lim.1 + lim.2) / 2

/-- The largest of the three absolute axis ranges. -/
def maxAbsRange (ax : Axes3D) : ℚ :=
  max |axisRange ax.xlim| (max |axisRange ax.ylim| |axisRange ax.zlim|)

/-- **C5.** `set_axes_equal` gives every axis the common range
`max(rx, ry, rz)` of the three absolute input ranges, each axis re-centered
on its own original midpoint; in particular input ranges `(10, 2, 50)` all
come out as `50`. -/
theorem set_axes_equal_ranges_and_middles (ax : Axes3D) :
    (axisRange (set_axes_equal ax).xlim = maxAbsRange ax ∧
     axisRange (set_axes_equal ax).ylim = maxAbsRange ax ∧
     axisRange (set_axes_equal ax).zlim = maxAbsRange ax) ∧
    (axisMiddle (set_axes_equal ax).xlim = axisMiddle ax.xlim ∧
     axisMiddle (set_axes_equal ax).ylim = axisMiddle ax.ylim ∧
     axisMiddle (set_axes_equal ax).zlim = axisMiddle ax.zlim) ∧
    (axisRange (set_axes_equal ⟨(0, 10), (0, 2), (0, 50)⟩).xlim = 50 ∧
     axisRange (set_axes_equal ⟨(0, 10), (0, 2), (0, 50)⟩).ylim = 50 ∧
     axisRange (set_axes_equal ⟨(0, 10), (0, 2), (0, 50)⟩).zlim = 50) :=
  ⟨⟨by simp only [set_axes_equal, axisRange, maxAbsRange]; ring,
    by simp only [set_axes_equal, axisRange, maxAbsRange]; ring,
    by simp only [set_axes_equal, axisRange, maxAbsRange]; ring⟩,
   ⟨by simp only [set_axes_equal, axisMiddle]; ring,
    by simp only [set_axes_equal, axisMiddle]; ring,
    by simp only [set_axes_equal, axisMiddle]; ring⟩,
   by norm_num [set_axes_equal, axisRange]⟩

/-- **C6.** For every nonzero zoom factor `z`, `set_zoom` divides each
axis's (absolute) half-range by `z` and keeps each axis centered at its
original midpoint: the new signed half-range is exactly the old absolute
half-range divided by `z`.  With `z = 2` this halves every half-range. -/
theorem set_zoom_halves_ranges (ax : Axes3D) (z : ℚ) (hz : z ≠ 0) :
    (axisRange (set_zoom ax z).xlim / 2 = |axisRange ax.xlim| / 2 / z ∧
     axisRange (set_zoom ax z).ylim / 2 = |axisRange ax.ylim| / 2 / z ∧
     axisRange (set_zoom ax z).zlim / 2 = |axisRange ax.zlim| / 2 / z) ∧
    (axisMiddle (set_zoom ax z).xlim = axisMiddle ax.xlim ∧
     axisMiddle (set_zoom ax z).ylim = axisMiddle ax.ylim ∧
     axisMiddle (set_zoom ax z).zlim = axisMiddle ax.zlim) :=
  ⟨⟨by simp only [set_zoom, axisRange]; ring,
    by simp only [set_zoom, axisRange]; ring,
    by simp only [set_zoom, axisRange]; ring⟩,
   ⟨by simp only [set_zoom, axisMiddle]; ring,
    by simp only [set_zoom, axisMiddle]; ring,
    by simp only [set_zoom, axisMiddle]; ring⟩⟩

/-- Witness for C6 at a concrete scene and zoom factor 2: the x half-range
10/2 = 5 becomes 5/2. -/
theorem set_zoom_halves_ranges_witness :
    (2 : ℚ) ≠ 0 ∧
    axisRange (set_zoom ⟨(0, 10), (0, 2), (0, 50)⟩ 2).xlim / 2
      = |axisRange (⟨(0, 10), (0, 2), (0, 50)⟩ : Axes3D).xlim| / 2 / 2 :=
  ⟨by norm_num,
   (set_zoom_halves_ranges ⟨(0, 10), (0, 2), (0, 50)⟩ 2 (by norm_num)).1.1⟩

/-- **C7** (evaluation at the failing input).  `set_zoom` performs the
division by `zoom` unconditionally and raises nothing: at `zoom = 0` it
still returns an `Axes3D` value (in the exact-`ℚ` embedding the half-ranges
degenerate; in the Python source, numpy float64 division by zero yields
non-finite limits).  No `InvalidZoomError` — nor any zero check — exists
anywhere in the code. -/
theorem set_zoom_zero_returns_axes :
    set_zoom ⟨(0, 10), (0, 2), (0, 50)⟩ 0
      = ⟨(5, 5), (1, 1), (25, 25)⟩ := by
  simp only [set_zoom, Axes3D.mk.injEq, Prod.mk.injEq]
  norm_num

/-! ### Trajectory extraction from tabular data (`read_csv_file`) -/

/-- Python `col.endswith(suffix)`, as used on header names in
`read_csv_file`. -/
def strEndsWith (s suf : String) : Bool := suf.data.isSuffixOf s.data

/-- One data row of the tabular file as pandas exposes it to
`read_csv_file`: the header's column names in their physical order, each
paired with that column's value at the requested row (`df.at[row, col]`
looks a value up by column name).  Column names are taken distinct, as
pandas de-duplicates them on read. -/
abbrev TableRow : Type := List (String × ℚ)

/-- `df.at[row, col]`: the value of the named column at the selected row. -/
def colValue (cols : TableRow) (name : String) : ℚ :=
  ((cols.find? (fun c => c.1 == name)).map Prod.snd).getD 0

/-- `x_cols` of map_pcd.py line 31: header names ending in `.x`, in header
order. -/
def xCols (cols : TableRow) : List String :=
  (cols.map Prod.fst).filter (fun c => strEndsWith c ".x")

/-- `y_cols` of map_pcd.py line 32. -/
def yCols (cols : TableRow) : List String :=
  (cols.map Prod.fst).filter (fun c => strEndsWith c ".y")

/-- `z_cols` of map_pcd.py line 33. -/
def zCols (cols : TableRow) : List String :=
  (cols.map Prod.fst).filter (fun c => strEndsWith c ".z")

/-- The failure modes of the embedded extraction/interpolation pipeline. -/
inductive VizError where
  /-- The loop `y_cols[i]` / `z_cols[i]` raises `IndexError` when the `.y`
  or `.z` column group is shorter than the `.x` group (the spec calls this
  `MissingColumnError`). -/
  | missingColumn
  /-- `interp1d(..., kind='cubic')` rejects fewer than 4 data points (the
  spec calls this `InsufficientPointsError`). -/
  | insufficientPoints
deriving DecidableEq, Repr

/-- `read_csv_file` (map_pcd.py lines 27-43): collect the header names
ending in `.x`, `.y`, `.z` (in header order), then for
`i in range(len(x_cols))` read the row's values at `x_cols[i]`,
`y_cols[i]`, `z_cols[i]` to form the `i`-th 3D point.  The subscripts
`y_cols[i]` / `z_cols[i]` fail (Python `IndexError`) exactly when the `.y`
or `.z` group has fewer entries than the `.x` group; the names are never
compared, so the pairing is purely positional. -/
def read_csv_file (cols : TableRow) : Except VizError (List Point3) :=
  let num_points := (xCols cols).length
  if (yCols cols).length < num_points ∨ (zCols cols).length < num_points then
    .error .missingColumn
  else
    .ok ((List.range num_points).map fun i =>
      (colValue cols ((xCols cols).getD i ""),
       colValue cols ((yCols cols).getD i ""),
       colValue cols ((zCols cols).getD i "")))

/-- The true coordinate triple of the keypoint named `base`: the row's
values at columns `base.x`, `base.y`, `base.z`. -/
def keypointTriple (cols : TableRow) (base : String) : Point3 :=
  (colValue cols (base ++ ".x"), colValue cols (base ++ ".y"),
   colValue cols (base ++ ".z"))

/-- A header in which every keypoint has all three columns, the `.x`
columns of `A` and `B` appear in that relative order, but the `.y` group
lists `B` before `A`. -/
def misalignedCols : TableRow :=
  [("A.x", 1), ("B.x", 2), ("B.y", 3), ("A.y", 4), ("A.z", 5), ("B.z", 6)]

/-- An aligned header `A.x, A.y, A.z, B.x, B.y, B.z` (the spec's §8
example). -/
def alignedCols : TableRow :=
  [("A.x", 1), ("A.y", 2), ("A.z", 3), ("B.x", 4), ("B.y", 5), ("B.z", 6)]

/-- A header where keypoint `A` has an `.x` column but no matching `.y`
column of the same name (its second column is `C.y` instead), while the
suffix-group sizes still agree. -/
def missingYCols : TableRow :=
  [("A.x", 1), ("C.y", 2), ("A.z", 3), ("B.x", 4), ("B.y", 5), ("B.z", 6)]

deriving instance DecidableEq for Except

/-- `getD` through a `map`, at an in-range index. -/
lemma getD_map_of_lt {α β : Type} (g : α → β) (l : List α) (i : ℕ)
    (hi : i < l.length) (d : α) (d' : β) :
    (l.map g).getD i d' = g (l.getD i d) := by
  rw [List.getD_eq_getElem?_getD, List.getD_eq_getElem?_getD,
    List.getElem?_map, List.getElem?_eq_getElem hi]
  rfl

/-- **C3 (counterexample).** On `misalignedCols`, where keypoints `A`, `B`
both have all three columns and their `.x` columns appear in order
`A, B`, extraction succeeds but the first returned point `(1, 3, 5)` is
neither keypoint `A`'s triple `(1, 4, 5)` nor keypoint `B`'s `(2, 3, 6)`:
the output is not the keypoints `[A, B]`, refuting "regardless of the
physical positions of the `.y` and `.z` columns". -/
theorem read_csv_misaligned_cex :
    read_csv_file misalignedCols = .ok [(1, 3, 5), (2, 4, 6)] ∧
    keypointTriple misalignedCols "A" = (1, 4, 5) ∧
    keypointTriple misalignedCols "B" = (2, 3, 6) ∧
    ((1 : ℚ), (3 : ℚ), (5 : ℚ)) ≠ ((1 : ℚ), (4 : ℚ), (5 : ℚ)) ∧
    ((1 : ℚ), (3 : ℚ), (5 : ℚ)) ≠ ((2 : ℚ), (3 : ℚ), (6 : ℚ)) := by
  decide

/-- **C3 (amended).** When the `.y` and `.z` suffix groups list the same
keypoint names in the same relative order as the `.x` group (their
physical positions in the header may still be arbitrary), extraction
succeeds and returns, in `.x`-appearance order, each keypoint's true
coordinate triple. -/
theorem read_csv_ordered_by_x_appearance (cols : TableRow)
    (bases : List String)
    (hx : xCols cols = bases.map (fun b => b ++ ".x"))
    (hy : yCols cols = bases.map (fun b => b ++ ".y"))
    (hz : zCols cols = bases.map (fun b => b ++ ".z")) :
    ∃ out, read_csv_file cols = .ok out ∧ out.length = bases.length ∧
      ∀ i, i < bases.length →
        out[i]? = some (keypointTriple cols (bases.getD i "")) := by
  have hlen : ¬ ((yCols cols).length < (xCols cols).length ∨
      (zCols cols).length < (xCols cols).length) := by
    rw [hx, hy, hz]; simp
  have hL : (xCols cols).length = bases.length := by rw [hx]; simp
  refine ⟨(List.range (xCols cols).length).map (fun i =>
      (colValue cols ((xCols cols).getD i ""),
       colValue cols ((yCols cols).getD i ""),
       colValue cols ((zCols cols).getD i ""))), ?_, ?_, ?_⟩
  · simp only [read_csv_file, if_neg hlen]
  · simp [hL]
  · intro i hi
    rw [List.getElem?_map, List.getElem?_range (by rw [hL]; exact hi)]
    simp only [Option.map_some', Option.some.injEq, keypointTriple,
      hx, hy, hz]
    rw [getD_map_of_lt _ _ _ hi "", getD_map_of_lt _ _ _ hi "",
      getD_map_of_lt _ _ _ hi ""]

/-- Witness for the amended C3 at the spec's own §8 header
`A.x, A.y, A.z, B.x, B.y, B.z`. -/
theorem read_csv_ordered_by_x_appearance_witness :
    (xCols alignedCols = ["A", "B"].map (fun b => b ++ ".x") ∧
     yCols alignedCols = ["A", "B"].map (fun b => b ++ ".y") ∧
     zCols alignedCols = ["A", "B"].map (fun b => b ++ ".z")) ∧
    (∃ out, read_csv_file alignedCols = .ok out ∧ out.length = 2 ∧
      ∀ i, i < (["A", "B"] : List String).length →
        out[i]? = some (keypointTriple alignedCols
          ((["A", "B"] : List String).getD i ""))) :=
  ⟨⟨by decide, by decide, by decide⟩,
   read_csv_ordered_by_x_appearance alignedCols ["A", "B"]
     (by decide) (by decide) (by decide)⟩

/-- **C4 (counterexample).** On `missingYCols`, keypoint `A` has an `.x`
column but no `A.y` column, yet extraction does not fail: the suffix-group
lengths agree, so the code silently pairs `A.x` with `C.y` and returns
`ok` — no `MissingColumnError` (no name comparison exists in the code). -/
theorem read_csv_missing_named_column_cex :
    (missingYCols.map Prod.fst).contains "A.x" = true ∧
    (missingYCols.map Prod.fst).contains "A.y" = false ∧
    read_csv_file missingYCols = .ok [(1, 2, 3), (4, 5, 6)] := by
  decide

/-- **C4 (amended).** Extraction fails (with the error the spec calls
`MissingColumnError`) exactly when the `.y` or `.z` suffix group has
fewer columns than the `.x` group; keypoint names are never compared, so
a same-named `.y`/`.z` column being absent does not by itself fail. -/
theorem read_csv_error_iff_fewer_suffix_columns (cols : TableRow) :
    read_csv_file cols = .error .missingColumn ↔
      ((yCols cols).length < (xCols cols).length ∨
       (zCols cols).length < (xCols cols).length) := by
  by_cases h : (yCols cols).length < (xCols cols).length ∨
      (zCols cols).length < (xCols cols).length
  · simp only [read_csv_file, if_pos h]
    exact iff_of_true trivial h
  · simp only [read_csv_file, if_neg h]
    exact iff_of_false (by simp) h

/-- **C10.** The pairing in `read_csv_file` is purely positional: whenever
the `.y` and `.z` groups are at least as long as the `.x` group (so no
`IndexError`), the `i`-th returned point is exactly the row's values at
the `i`-th `.x`-, `.y`- and `.z`-suffixed columns, whatever their
keypoint-name prefixes are. -/
theorem read_csv_pairs_positionally (cols : TableRow)
    (hy : (xCols cols).length ≤ (yCols cols).length)
    (hz : (xCols cols).length ≤ (zCols cols).length) :
    ∃ out, read_csv_file cols = .ok out ∧
      out.length = (xCols cols).length ∧
      ∀ i, i < (xCols cols).length →
        out[i]? = some (colValue cols ((xCols cols).getD i ""),
                        colValue cols ((yCols cols).getD i ""),
                        colValue cols ((zCols cols).getD i "")) := by
  refine ⟨(List.range (xCols cols).length).map (fun i =>
      (colValue cols ((xCols cols).getD i ""),
       colValue cols ((yCols cols).getD i ""),
       colValue cols ((zCols cols).getD i ""))), ?_, ?_, ?_⟩
  · simp only [read_csv_file, if_neg (by omega :
      ¬ ((yCols cols).length < (xCols cols).length ∨
         (zCols cols).length < (xCols cols).length))]
  · simp
  · intro i hi
    rw [List.getElem?_map, List.getElem?_range hi]
    rfl

/-- Witness for C10 on the misaligned header: the suffix groups have equal
length, and the first returned point mixes `A.x` with `B.y`. -/
theorem read_csv_pairs_positionally_witness :
    (xCols misalignedCols).length ≤ (yCols misalignedCols).length ∧
    (xCols misalignedCols).length ≤ (zCols misalignedCols).length ∧
    (∃ out, read_csv_file misalignedCols = .ok out ∧
      out.length = (xCols misalignedCols).length ∧
      ∀ i, i < (xCols misalignedCols).length →
        out[i]? = some (colValue misalignedCols ((xCols misalignedCols).getD i ""),
                        colValue misalignedCols ((yCols misalignedCols).getD i ""),
                        colValue misalignedCols ((zCols misalignedCols).getD i ""))) :=
  ⟨by decide, by decide,
   read_csv_pairs_positionally misalignedCols (by decide) (by decide)⟩

/-! ### Scene composition: height-gradient coloring and the trajectory loop -/

/-- `np.min` over the z-column of a nonempty cloud (the `0` default is
never reached on the nonempty clouds the claims quantify over;
`np.min` raises on an empty array). -/
def npMin (l : List ℚ) : ℚ :=
  match l with
  | [] => 0
  | a :: rest => rest.foldl min a

/-- `np.max` over a list, same conventions as `npMin`. -/
def npMax (l : List ℚ) : ℚ :=
  match l with
  | [] => 0
  | a :: rest => rest.foldl max a

/-- The z-coordinates `point_cloud[:, 2]`. -/
def zCoords (cloud : List Point3) : List ℚ := cloud.map (fun p => p.2.2)

/-- matplotlib `Normalize(vmin, vmax)` applied to one value: when
`vmin == vmax`, matplotlib fills the result with the constant `0`
instead of dividing (`colors.py`: `if vmin == vmax: result.fill(0)`);
otherwise it returns `(v - vmin) / (vmax - vmin)`. -/
def normalizeValue (vmin vmax v : ℚ) : ℚ :=
  if vmin = vmax then 0 else (v - vmin) / (vmax - vmin)

/-- The `height_gradient` branch of `visualize` (map_pcd.py lines 73-77):
the normalized z-values fed to the `jet` colormap, with
`vmin = np.min(point_cloud[:, 2])` and `vmax = np.max(point_cloud[:, 2])`. -/
def heightGradientValues (cloud : List Point3) : List ℚ :=
  (zCoords cloud).map
    (normalizeValue (npMin (zCoords cloud)) (npMax (zCoords cloud)))

/-- **C8.** For a nonempty cloud whose z-extent is degenerate
(`min z == max z`), the height-gradient normalization takes the
`vmin == vmax` fallback branch and yields the safe constant `0` for every
point — the dividing branch is never evaluated, so composing the scene
never divides by zero. -/
theorem height_gradient_degenerate_is_constant (cloud : List Point3)
    (hne : cloud ≠ [])
    (hflat : npMin (zCoords cloud) = npMax (zCoords cloud)) :
    heightGradientValues cloud = (zCoords cloud).map (fun _ => 0) := by
  simp only [heightGradientValues, hflat]
  have hconst : normalizeValue (npMax (zCoords cloud)) (npMax (zCoords cloud))
      = fun _ => (0 : ℚ) := by
    funext v
    simp [normalizeValue]
  rw [hconst]

/-- Witness for C8 on a concrete one-point cloud (zero z-extent). -/
theorem height_gradient_degenerate_is_constant_witness :
    ([((0 : ℚ), (0 : ℚ), (5 : ℚ))] : List Point3) ≠ [] ∧
    npMin (zCoords [((0 : ℚ), (0 : ℚ), (5 : ℚ))])
      = npMax (zCoords [((0 : ℚ), (0 : ℚ), (5 : ℚ))]) ∧
    heightGradientValues [((0 : ℚ), (0 : ℚ), (5 : ℚ))]
      = (zCoords [((0 : ℚ), (0 : ℚ), (5 : ℚ))]).map (fun _ => 0) :=
  ⟨by decide, rfl,
   height_gradient_degenerate_is_constant [((0 : ℚ), (0 : ℚ), (5 : ℚ))]
     (by decide) rfl⟩

/-- The per-trajectory iteration of `visualize` (map_pcd.py lines 87-88):
Python's `zip(self.csv_file_paths, rows, line_colors,
trajectory_point_colors, trajectory_point_sizes, line_widths)`, which
stops at the shortest of the six lists.  Each element is the tuple the
loop body renders one trajectory from.  No length check precedes it. -/
def trajectoryPlan (paths : List String) (rows : List ℕ)
    (line_colors point_colors : List String)
    (point_sizes line_widths : List ℕ) :
    List (String × ℕ × String × String × ℕ × ℕ) :=
  paths.zip (rows.zip (line_colors.zip (point_colors.zip
    (point_sizes.zip line_widths))))

/-- **C9 (counterexample).** With two trajectory sources but a single
line-color value, the loop silently renders only one trajectory: no
error of any kind is raised (the plan is an ordinary list, and nothing in
the code compares the list lengths), refuting "fails with
`MismatchedStyleCountError`". -/
theorem trajectory_plan_truncates_cex :
    trajectoryPlan ["t1.csv", "t2.csv"] [6, 6] ["r"] ["b", "b"] [5, 5] [2, 2]
      = [("t1.csv", 6, "r", "b", 5, 2)] ∧
    (["t1.csv", "t2.csv"] : List String).length = 2 ∧
    (trajectoryPlan ["t1.csv", "t2.csv"] [6, 6] ["r"] ["b", "b"] [5, 5]
      [2, 2]).length = 1 := by
  decide

/-- **C9 (amended).** When fewer per-trajectory style values are supplied
than trajectory sources, `visualize` raises nothing: the `zip` truncates
the loop to the shortest of the six per-trajectory lists, silently
dropping the remaining trajectory sources. -/
theorem trajectory_plan_length (paths : List String) (rows : List ℕ)
    (line_colors point_colors : List String)
    (point_sizes line_widths : List ℕ) :
    (trajectoryPlan paths rows line_colors point_colors point_sizes
        line_widths).length
      = min paths.length (min rows.length (min line_colors.length
          (min point_colors.length (min point_sizes.length
            line_widths.length)))) := by
  simp [trajectoryPlan, List.length_zip]

/-! ### Trajectory interpolation (`interpolate_trajectory`)

`interpolate_trajectory` parametrizes the keypoints by `t = arange(n)` and
interpolates each coordinate with `scipy.interpolate.interp1d(kind='cubic')`,
a cubic spline through all data points (knot spacing 1).  The spline is
embedded concretely: second-derivative moments from the natural-spline
tridiagonal system (diagonal 4, off-diagonal 1, right side the scaled
second differences), solved by the Thomas algorithm, then piecewise cubic
evaluation in the standard moment form.  `interp1d` rejects fewer than 4
points for a cubic (order-3 spline needs at least 4 data points), which
the spec names `InsufficientPointsError`. -/

/-- Right sides `6 * (y[i+1] - 2*y[i] + y[i-1])`, `i = 1 .. n-2`, of the
natural-spline moment system for unit knot spacing. -/
def secondDiffs : List ℚ → List ℚ
  | a :: rest@(b :: c :: _) => 6 * (c - 2 * b + a) :: secondDiffs rest
  | _ => []

/-- Forward sweep of the Thomas algorithm on the tridiagonal system with
diagonal `4` and off-diagonals `1`: accumulates the modified coefficients
`(c', d')` rows. -/
def thomasSweep : ℚ → ℚ → List ℚ → List (ℚ × ℚ)
  | _, _, [] => []
  | cp, dp, d :: rest =>
    let denom := 4 - cp
    let cp2 := 1 / denom
    let dp2 := (d - dp) / denom
    (cp2, dp2) :: thomasSweep cp2 dp2 rest

/-- Back substitution of the Thomas algorithm, consuming the sweep rows in
reverse. -/
def thomasBack : List (ℚ × ℚ) → ℚ → List ℚ
  | [], _ => []
  | (cp, dp) :: rest, xnext =>
    let x := dp - cp * xnext
    x :: thomasBack rest x

/-- Solve the interior tridiagonal moment system. -/
def solveTridiag (ds : List ℚ) : List ℚ :=
  (thomasBack (thomasSweep 0 0 ds).reverse 0).reverse

/-- Spline moments (second derivatives at the knots): `0` at both
boundaries (natural spline), interior values from the tridiagonal solve. -/
def splineMoments (y : List ℚ) : List ℚ :=
  0 :: (solveTridiag (secondDiffs y) ++ [0])

/-- The cubic piece on `[i, i+1]` in moment form, evaluated at local
offset `u ∈ [0, 1]`:
`M_i (1-u)³/6 + M_{i+1} u³/6 + (y_i - M_i/6)(1-u) + (y_{i+1} - M_{i+1}/6) u`.
At `u = 0` this is `y_i` and at `u = 1` it is `y_{i+1}`, whatever the
moments are — the spline passes through every data point. -/
def splineSeg (y : List ℚ) (i : ℕ) (u : ℚ) : ℚ :=
  let M := splineMoments y
  let yi := y.getD i 0
  let yi1 := y.getD (i + 1) 0
  let mi := M.getD i 0
  let mi1 := M.getD (i + 1) 0
  mi * (1 - u) ^ 3 / 6 + mi1 * u ^ 3 / 6 + (yi - mi / 6) * (1 - u)
    + (yi1 - mi1 / 6) * u

/-- Evaluate the cubic spline through `(i, y[i])`, `i = 0 .. n-1`, at
parameter `t`: locate the piece by `⌊t⌋` clamped to `[0, n-2]` and
evaluate it at the local offset. -/
def splineEval (y : List ℚ) (t : ℚ) : ℚ :=
  let j : ℤ := max 0 (min ⌊t⌋ ((y.length : ℤ) - 2))
  splineSeg y j.toNat (t - (j : ℚ))

/-- `np.linspace(start, stop, num)` over exact rationals: `num` evenly
spaced samples from `start` to `stop` inclusive; `num = 1` gives
`[start]`, `num = 0` gives `[]`. -/
def linspace (start stop : ℚ) (num : ℕ) : List ℚ :=
  if num = 0 then []
  else if num = 1 then [start]
  else (List.range num).map
    (fun i : ℕ => start + (stop - start) * (i : ℚ) / ((num : ℚ) - 1))

/-- The 3D spline point at parameter `t`: the three per-coordinate splines
of map_pcd.py lines 49-51 (`f_x`, `f_y`, `f_z`), column-stacked. -/
def splinePointAt (pts : List Point3) (t : ℚ) : Point3 :=
  (splineEval (pts.map (fun p => p.1)) t,
   splineEval (pts.map (fun p => p.2.1)) t,
   splineEval (pts.map (fun p => p.2.2)) t)

/-- `interpolate_trajectory` (map_pcd.py lines 45-58): reject fewer than 4
points (cubic `interp1d` then raises, the spec's
`InsufficientPointsError`), else sample the three coordinate splines at
`t_new = np.linspace(0, n - 1, num_interpolation_points)`. -/
def interpolate_trajectory (pts : List Point3)
    (num_interpolation_points : ℕ) : Except VizError (List Point3) :=
  if pts.length < 4 then .error .insufficientPoints
  else
    .ok ((linspace 0 ((pts.length : ℚ) - 1) num_interpolation_points).map
      (splinePointAt pts))

/-- The spline piece at local offset `0` is the left data value,
independently of the moments. -/
lemma splineSeg_at_zero (y : List ℚ) (i : ℕ) : splineSeg y i 0 = y.getD i 0 := by
  simp only [splineSeg]
  ring

/-- The spline piece at local offset `1` is the right data value,
independently of the moments. -/
lemma splineSeg_at_one (y : List ℚ) (i : ℕ) :
    splineSeg y i 1 = y.getD (i + 1) 0 := by
  simp only [splineSeg]
  ring

/-- The spline interpolates the first data value at `t = 0`. -/
lemma splineEval_at_zero (y : List ℚ) (h : 2 ≤ y.length) :
    splineEval y 0 = y.getD 0 0 := by
  have hj : max 0 (min ⌊(0 : ℚ)⌋ ((y.length : ℤ) - 2)) = 0 := by
    rw [Int.floor_zero]
    omega
  simp only [splineEval, hj, Int.toNat_zero, Int.cast_zero, sub_zero]
  exact splineSeg_at_zero y 0

/-- The spline interpolates the last data value at `t = n - 1`. -/
lemma splineEval_at_last (y : List ℚ) (h : 2 ≤ y.length) :
    splineEval y ((y.length : ℚ) - 1) = y.getD (y.length - 1) 0 := by
  have hfl : ⌊((y.length : ℚ) - 1)⌋ = (y.length : ℤ) - 1 := by
    have hc : ((y.length : ℚ) - 1) = (((y.length : ℤ) - 1 : ℤ) : ℚ) := by
      push_cast
      ring
    rw [hc, Int.floor_intCast]
  have hj : max 0 (min ⌊((y.length : ℚ) - 1)⌋ ((y.length : ℤ) - 2))
      = (y.length : ℤ) - 2 := by
    rw [hfl]
    omega
  have htn : ((y.length : ℤ) - 2).toNat = y.length - 2 := by omega
  have hu : ((y.length : ℚ) - 1) - ((((y.length : ℤ) - 2) : ℤ) : ℚ) = 1 := by
    push_cast
    ring
  simp only [splineEval, hj, htn, hu, splineSeg_at_one]
  congr 1
  omega

/-- Number of linspace samples. -/
lemma linspace_length (a b : ℚ) (num : ℕ) (h : 2 ≤ num) :
    (linspace a b num).length = num := by
  rw [linspace, if_neg (by omega), if_neg (by omega)]
  simp

/-- The `j`-th linspace sample, `j < num`, `num ≥ 2`. -/
lemma linspace_getElem_eq (a b : ℚ) (num j : ℕ) (h2 : 2 ≤ num)
    (hj : j < num) :
    (linspace a b num)[j]? = some (a + (b - a) * j / ((num : ℚ) - 1)) := by
  rw [linspace, if_neg (by omega), if_neg (by omega), List.getElem?_map,
    List.getElem?_range hj]
  rfl

/-- `head?` of a nonempty list via `getD`. -/
lemma head_eq_getD {α : Type} (l : List α) (h : l ≠ []) (d : α) :
    l.head? = some (l.getD 0 d) := by
  cases l with
  | nil => exact absurd rfl h
  | cons a t => rfl

/-- `getLast?` of a nonempty list via `getD`. -/
lemma getLast_eq_getD {α : Type} (l : List α) (h : l ≠ []) (d : α) :
    l.getLast? = some (l.getD (l.length - 1) d) := by
  have hpos : 0 < l.length := List.length_pos.mpr h
  rw [List.getLast?_eq_getElem?, List.getElem?_eq_getElem (by omega),
    List.getD_eq_getElem l d (by omega)]

/-- The 3D spline point at `t = 0` is the first keypoint. -/
lemma splinePointAt_at_zero (pts : List Point3) (h : 2 ≤ pts.length) :
    splinePointAt pts 0 = pts.getD 0 (0, 0, 0) := by
  unfold splinePointAt
  rw [splineEval_at_zero _ (by simpa using h),
    splineEval_at_zero _ (by simpa using h),
    splineEval_at_zero _ (by simpa using h),
    getD_map_of_lt _ _ _ (by omega) ((0 : ℚ), (0 : ℚ), (0 : ℚ)),
    getD_map_of_lt _ _ _ (by omega) ((0 : ℚ), (0 : ℚ), (0 : ℚ)),
    getD_map_of_lt _ _ _ (by omega) ((0 : ℚ), (0 : ℚ), (0 : ℚ))]

/-- The 3D spline point at `t = n - 1` is the last keypoint. -/
lemma splinePointAt_at_last (pts : List Point3) (h : 2 ≤ pts.length) :
    splinePointAt pts ((pts.length : ℚ) - 1)
      = pts.getD (pts.length - 1) (0, 0, 0) := by
  unfold splinePointAt
  have e1 := splineEval_at_last (pts.map (fun p => p.1)) (by simpa using h)
  have e2 := splineEval_at_last (pts.map (fun p => p.2.1)) (by simpa using h)
  have e3 := splineEval_at_last (pts.map (fun p => p.2.2)) (by simpa using h)
  rw [List.length_map] at e1 e2 e3
  rw [e1, e2, e3,
    getD_map_of_lt _ _ _ (by omega) ((0 : ℚ), (0 : ℚ), (0 : ℚ)),
    getD_map_of_lt _ _ _ (by omega) ((0 : ℚ), (0 : ℚ), (0 : ℚ)),
    getD_map_of_lt _ _ _ (by omega) ((0 : ℚ), (0 : ℚ), (0 : ℚ))]

/-- **C2.** For every keypoint sequence with fewer than 4 points (so all of
`n ∈ {0,1,2,3}`) and every requested count, interpolation fails with the
error the spec calls `InsufficientPointsError` (cubic `interp1d` requires
at least 4 points). -/
theorem interpolate_insufficient_points (pts : List Point3) (count : ℕ)
    (h : pts.length < 4) :
    interpolate_trajectory pts count = .error .insufficientPoints := by
  rw [interpolate_trajectory, if_pos h]

/-- Witness for C2 on a concrete 3-point trajectory. -/
theorem interpolate_insufficient_points_witness :
    ([((0 : ℚ), (0 : ℚ), (0 : ℚ)), (1, 1, 1), (2, 2, 2)] : List Point3).length < 4 ∧
    interpolate_trajectory
        [((0 : ℚ), (0 : ℚ), (0 : ℚ)), (1, 1, 1), (2, 2, 2)] 100
      = .error .insufficientPoints :=
  ⟨by decide,
   interpolate_insufficient_points
     [((0 : ℚ), (0 : ℚ), (0 : ℚ)), (1, 1, 1), (2, 2, 2)] 100 (by decide)⟩

/-- A concrete 4-point trajectory with distinct first and last points. -/
def cexPts : List Point3 := [(0, 0, 0), (1, 1, 1), (2, 2, 2), (3, 3, 3)]

/-- **C1 (counterexample).** At requested count `1`, `np.linspace(0, n-1, 1)`
is `[0]`, so interpolation returns the single point `points[0]`: its last
output point is `(0,0,0)`, not the last input point `(3,3,3)` — refuting
"for every requested count … its first and last output points equal the
first and last input points". -/
theorem interpolate_count_one_cex :
    interpolate_trajectory cexPts 1 = .ok [((0 : ℚ), (0 : ℚ), (0 : ℚ))] ∧
    cexPts.getLast? = some ((3 : ℚ), (3 : ℚ), (3 : ℚ)) ∧
    (((0 : ℚ), (0 : ℚ), (0 : ℚ)) : Point3) ≠ ((3 : ℚ), (3 : ℚ), (3 : ℚ)) := by
  refine ⟨?_, by decide, by decide⟩
  rw [interpolate_trajectory, if_neg (by decide), linspace,
    if_neg (by decide), if_pos rfl]
  simp only [List.map_cons, List.map_nil]
  rw [splinePointAt_at_zero cexPts (by decide)]
  rfl

/-- **C1 (amended).** For every input sequence of `n ≥ 4` keypoints and
every requested count ≥ 2, interpolation succeeds with exactly `count`
points, the `j`-th sampled at the evenly spaced parameter
`(n-1)·j/(count-1)` (so the parameters span `[0, n-1]` inclusive), and the
first and last output points equal the first and last input points
exactly.  (At count 1 numpy samples only `t = 0`; at count 0 the output is
empty.) -/
theorem interpolate_spec (pts : List Point3) (count : ℕ)
    (h4 : 4 ≤ pts.length) (h2 : 2 ≤ count) :
    ∃ out, interpolate_trajectory pts count = .ok out ∧
      out.length = count ∧
      (∀ j, j < count → out[j]? =
        some (splinePointAt pts
          (((pts.length : ℚ) - 1) * j / ((count : ℚ) - 1)))) ∧
      out.head? = pts.head? ∧
      out.getLast? = pts.getLast? := by
  have hne : pts ≠ [] := by
    intro hnil
    rw [hnil] at h4
    simp at h4
  have hlen2 : 2 ≤ pts.length := by omega
  have hLlen : (linspace 0 ((pts.length : ℚ) - 1) count).length = count :=
    linspace_length _ _ _ h2
  have hMne : (linspace 0 ((pts.length : ℚ) - 1) count).map
      (splinePointAt pts) ≠ [] := by
    intro hnil
    have := congrArg List.length hnil
    rw [List.length_map, hLlen] at this
    simp at this
    omega
  refine ⟨(linspace 0 ((pts.length : ℚ) - 1) count).map (splinePointAt pts),
    ?_, ?_, ?_, ?_, ?_⟩
  · rw [interpolate_trajectory, if_neg (by omega)]
  · rw [List.length_map, hLlen]
  · intro j hj
    rw [List.getElem?_map, linspace_getElem_eq _ _ _ _ h2 hj]
    simp only [Option.map_some']
    congr 2
    ring
  · rw [head_eq_getD _ hMne ((0 : ℚ), (0 : ℚ), (0 : ℚ)),
      getD_map_of_lt _ _ _ (by omega) 0,
      head_eq_getD pts hne ((0 : ℚ), (0 : ℚ), (0 : ℚ))]
    have h0 : (linspace 0 ((pts.length : ℚ) - 1) count).getD 0 0 = 0 := by
      rw [List.getD_eq_getElem?_getD,
        linspace_getElem_eq _ _ _ 0 h2 (by omega)]
      norm_num
    rw [h0, splinePointAt_at_zero pts hlen2]
  · rw [getLast_eq_getD _ hMne ((0 : ℚ), (0 : ℚ), (0 : ℚ)),
      getLast_eq_getD pts hne ((0 : ℚ), (0 : ℚ), (0 : ℚ)),
      List.length_map, hLlen,
      getD_map_of_lt _ _ _ (by omega) 0]
    have hc1 : (0 : ℚ) < (count : ℚ) - 1 := by
      have : (2 : ℚ) ≤ (count : ℚ) := by exact_mod_cast h2
      linarith
    have hlast : (linspace 0 ((pts.length : ℚ) - 1) count).getD (count - 1) 0
        = (pts.length : ℚ) - 1 := by
      rw [List.getD_eq_getElem?_getD,
        linspace_getElem_eq _ _ _ (count - 1) h2 (by omega)]
      have hcc : ((count - 1 : ℕ) : ℚ) = (count : ℚ) - 1 := by
        push_cast [Nat.cast_sub (by omega : 1 ≤ count)]
        ring
      simp only [Option.getD_some, hcc]
      field_simp
    rw [hlast, splinePointAt_at_last pts hlen2]

/-- Witness for the amended C1 on the concrete 4-point trajectory at
count 5. -/
theorem interpolate_spec_witness :
    4 ≤ cexPts.length ∧ 2 ≤ (5 : ℕ) ∧
    (∃ out, interpolate_trajectory cexPts 5 = .ok out ∧
      out.length = 5 ∧
      (∀ j, j < (5 : ℕ) → out[j]? =
        some (splinePointAt cexPts
          (((cexPts.length : ℚ) - 1) * j / (((5 : ℕ) : ℚ) - 1)))) ∧
      out.head? = cexPts.head? ∧
      out.getLast? = cexPts.getLast?) :=
  ⟨by decide, by decide, interpolate_spec cexPts 5 (by decide) (by decide)⟩

end TrajectoryViewer
